import Mathlib

/-!
# Majsoul websocket transport (`platform/majsoul/liqi.go`)

A shallow embedding of the request/response transport of `liqi.go`:
the envelope (kind byte, little-endian 16-bit message index, wrapped payload),
the pending-call registry `respMessageChanMap`, the body of the read loop `run`
and the write path `send`.

Bytes are natural numbers below 256, `uint16` values are natural numbers with
the arithmetic reduced modulo `65536` where Go would wrap around. The websocket
connection and the protobuf library are the environment: the field `ws` is not
part of the state (the client is taken to be connected), what `ReadMessage`,
`WriteMessage` and `ws.Close` return is an input of the step, and the protobuf
functions are the fields of `Proto`. A step (`send`, one pass through the body of
the read loop, `Close`) is atomic.
-/

namespace Majsoul

/-- A Go byte slice. -/
abbrev Bytes := List Nat

/-- A Go `error` value. -/
structure GoError where
  code : Nat
deriving DecidableEq, Repr

deriving instance DecidableEq for Except

def messageTypeNotify : Nat := 1

def messageTypeRequest : Nat := 2

def messageTypeResponse : Nat := 3

/-- A reply channel `chan *T`: the identity of the channel and the element type `T`
that `reflect.TypeOf(ch).Elem().Elem()` recovers from it. -/
structure Chan where
  id : Nat
  elemType : Nat
deriving DecidableEq, Repr

/-- The protobuf library as used by `liqi.go`. `Marshal` is `proto.Marshal` on a request
message, `MarshalWrapper name data` is `proto.Marshal(&lq.Wrapper{Name: name, Data: data})`,
`UnmarshalWrapper` is `proto.Unmarshal` into an `lq.Wrapper` followed by `GetName` and
`GetData`, and `Unmarshal ty data` is `proto.Unmarshal` into a fresh message of type `ty`. -/
structure Proto (Msg : Type) where
  Marshal : Msg → Except GoError Bytes
  MarshalWrapper : Bytes → Bytes → Except GoError Bytes
  UnmarshalWrapper : Bytes → Except GoError (Bytes × Bytes)
  Unmarshal : Nat → Bytes → Except GoError Msg

/-- The client state: the `closed` flag, the `uint16` counter `messageIndex` and the
registry `respMessageChanMap` (message index to reply channel). -/
structure WebSocketClient where
  closed : Bool
  messageIndex : Nat
  respMessageChanMap : List (Nat × Chan)
deriving DecidableEq, Repr

/-- `sync.Map.Load`. -/
def Load : List (Nat × Chan) → Nat → Option Chan
  | [], _ => none
  | (k, v) :: rest, key => if k = key then some v else Load rest key

/-- `sync.Map.Delete`. -/
def Delete : List (Nat × Chan) → Nat → List (Nat × Chan)
  | [], _ => []
  | (k, v) :: rest, key => if k = key then Delete rest key else (k, v) :: Delete rest key

/-- `sync.Map.Store`: the value replaces what was stored under the key. -/
def Store (m : List (Nat × Chan)) (key : Nat) (v : Chan) : List (Nat × Chan) :=
  (key, v) :: Delete m key

def NewWebSocketClient : WebSocketClient :=
  { closed := false, messageIndex := 0, respMessageChanMap := [] }

/-- `binary.LittleEndian.PutUint16` into a fresh two-byte slice. -/
def PutUint16 (v : Nat) : Bytes := [v % 256, v / 256 % 256]

/-- `binary.LittleEndian.Uint16` on a two-byte slice. -/
def Uint16 (b : Bytes) : Nat := b.getD 0 0 % 256 + 256 * (b.getD 1 0 % 256)

def WrapMessage {Msg : Type} (P : Proto Msg) (name : Bytes) (message : Msg) :
    Except GoError Bytes :=
  match P.Marshal message with
  | .error err => .error err
  | .ok data => P.MarshalWrapper name data

def UnwrapData {Msg : Type} (P : Proto Msg) (rawData : Bytes) :
    Except GoError (Bytes × Bytes) :=
  match P.UnmarshalWrapper rawData with
  | .error err => .error err
  | .ok (methodName, data) => .ok (methodName, data)

/-- `UnwrapMessage` into a fresh message of type `ty`. -/
def UnwrapMessage {Msg : Type} (P : Proto Msg) (rawData : Bytes) (ty : Nat) :
    Except GoError Msg :=
  match UnwrapData P rawData with
  | .error err => .error err
  | .ok (_, data) => P.Unmarshal ty data

/-- What one pass through the body of the read loop does besides changing the client. -/
inductive Event (Msg : Type) where
  | logReadMessage (err : GoError)
  | logTooShort (data : Bytes)
  | logNotFound (messageIndex : Nat)
  | logUnwrapData (err : GoError)
  | chanClose (ch : Chan)
  | chanSend (ch : Chan) (m : Msg)
deriving DecidableEq, Repr

/-- The outcome of one pass through the body of the read loop: the client, the events
in order, and whether the loop has returned. -/
structure RunStep (Msg : Type) where
  client : WebSocketClient
  events : List (Event Msg)
  returned : Bool
deriving DecidableEq, Repr

/-- The body of the `for !c.closed` loop of `run`, given what `c.ws.ReadMessage()`
returned. -/
def runBody {Msg : Type} (P : Proto Msg) (c : WebSocketClient) (read : Except GoError Bytes) :
    RunStep Msg :=
  match read with
  | .error err =>
    if c.closed then ⟨c, [], true⟩
    else ⟨c, [.logReadMessage err], false⟩
  | .ok data =>
    if data.length ≤ 3 then ⟨c, [.logTooShort data], false⟩
    else if data.getD 0 0 = messageTypeResponse then
      let messageIndex := Uint16 ((data.drop 1).take 2)
      match Load c.respMessageChanMap messageIndex with
      | none => ⟨c, [.logNotFound messageIndex], false⟩
      | some rawRespMessageChan =>
        let c1 := { c with respMessageChanMap := Delete c.respMessageChanMap messageIndex }
        match UnwrapMessage P (data.drop 3) rawRespMessageChan.elemType with
        | .error err => ⟨c1, [.logUnwrapData err, .chanClose rawRespMessageChan], false⟩
        | .ok respMessage => ⟨c1, [.chanSend rawRespMessageChan respMessage], false⟩
    else ⟨c, [], false⟩

/-- The read loop `run` over the results of the successive `ReadMessage` calls. -/
def run {Msg : Type} (P : Proto Msg) :
    WebSocketClient → List (Except GoError Bytes) → WebSocketClient × List (Event Msg)
  | c, [] => (c, [])
  | c, read :: rest =>
    if c.closed then (c, [])
    else
      let s := runBody P c read
      if s.returned then (s.client, s.events)
      else ((run P s.client rest).1, s.events ++ (run P s.client rest).2)

/-- `Close`, given what `c.ws.Close()` returned. -/
def Close (c : WebSocketClient) (wsClose : Option GoError) : WebSocketClient × Option GoError :=
  ({ c with closed := true }, wsClose)

/-- The frame of a request: the kind byte, the message index, the wrapped payload. -/
def requestFrame (messageIndex : Nat) (data : Bytes) : Bytes :=
  ([messageTypeRequest] ++ PutUint16 messageIndex) ++ data

/-- The outcome of `send`: the client, the frame handed to `c.ws.WriteMessage` (when the
call was reached) and the returned error. -/
structure SendResult where
  client : WebSocketClient
  frame : Option Bytes
  err : Option GoError
deriving DecidableEq, Repr

/-- `send`, given what `c.ws.WriteMessage` returns. -/
def send {Msg : Type} (P : Proto Msg) (c : WebSocketClient) (name : Bytes) (reqMessage : Msg)
    (respMessageChan : Chan) (wsWrite : Option GoError) : SendResult :=
  match WrapMessage P name reqMessage with
  | .error err => ⟨c, none, some err⟩
  | .ok data =>
    let c1 := { c with messageIndex := (c.messageIndex + 1) % 65536 % 60007 }
    let frame := requestFrame c1.messageIndex data
    match wsWrite with
    | some err => ⟨c1, some frame, some err⟩
    | none =>
      ⟨{ c1 with respMessageChanMap := Store c1.respMessageChanMap c1.messageIndex respMessageChan },
        some frame, none⟩

/-- One step of the trace of a session: a `send`, one pass through the body of the read
loop, or a `Close`, each with what the connection answered. -/
inductive Action (Msg : Type) where
  | send (name : Bytes) (reqMessage : Msg) (respMessageChan : Chan) (wsWrite : Option GoError)
  | read (read : Except GoError Bytes)
  | close (wsClose : Option GoError)

/-- The client after one step of the trace. -/
def step {Msg : Type} (P : Proto Msg) (c : WebSocketClient) : Action Msg → WebSocketClient
  | .send name reqMessage respMessageChan wsWrite =>
    (send P c name reqMessage respMessageChan wsWrite).client
  | .read read => (runBody P c read).client
  | .close wsClose => (Close c wsClose).1

/-- The client after a trace. -/
def exec {Msg : Type} (P : Proto Msg) : WebSocketClient → List (Action Msg) → WebSocketClient
  | c, [] => c
  | c, a :: rest => exec P (step P c a) rest

/-- The number of `send` calls in a trace that get past `WrapMessage`, that is, the
number of message indices the trace assigns. -/
def countAssigned {Msg : Type} (P : Proto Msg) : List (Action Msg) → Nat
  | [] => 0
  | .send name reqMessage _ _ :: rest =>
    (match WrapMessage P name reqMessage with
      | .ok _ => 1
      | .error _ => 0) + countAssigned P rest
  | .read _ :: rest => countAssigned P rest
  | .close _ :: rest => countAssigned P rest

/-- The states a client goes through, starting from `NewWebSocketClient`. -/
inductive Reachable {Msg : Type} (P : Proto Msg) : WebSocketClient → Prop where
  | new : Reachable P NewWebSocketClient
  | step (c : WebSocketClient) (a : Action Msg) : Reachable P c → Reachable P (step P c a)

/-- The read side's rules applied to one frame: the length check of `run`, the kind from
byte 0, the message index from bytes 1-2, `UnwrapData` on the remaining bytes. The result
is the kind, the message index, the name and the payload. -/
def decodeFrame {Msg : Type} (P : Proto Msg) (data : Bytes) : Option (Nat × Nat × Bytes × Bytes) :=
  if data.length ≤ 3 then none
  else
    match UnwrapData P (data.drop 3) with
    | .error _ => none
    | .ok (name, payload) => some (data.getD 0 0, Uint16 ((data.drop 1).take 2), name, payload)

/-! ## A protobuf instance

The wire format of protobuf for the messages of the transport, used to evaluate the
definitions on concrete frames. -/

/-- Protobuf base-128 varint, at most `fuel` bytes. -/
def putVarint : Nat → Nat → Bytes
  | 0, _ => []
  | fuel + 1, n => if n < 128 then [n] else (n % 128 + 128) :: putVarint fuel (n / 128)

/-- Reads the bytes of a protobuf base-128 varint, at most `fuel` of them. -/
def getVarintBytes : Nat → Bytes → Option (Nat × Bytes)
  | 0, _ => none
  | _ + 1, [] => none
  | fuel + 1, b :: rest =>
    if b < 128 then some (b, rest)
    else
      match getVarintBytes fuel rest with
      | none => none
      | some (v, rest1) => some (b % 128 + 128 * v, rest1)

/-- Reads a protobuf varint: at most 10 bytes and a value that fits in 64 bits. -/
def getVarint (bs : Bytes) : Option (Nat × Bytes) :=
  match getVarintBytes 10 bs with
  | none => none
  | some (v, rest) => if v < 18446744073709551616 then some (v, rest) else none

/-- Skips the fields of a protobuf group up to the end-group tag that closes it; `depth`
is the number of groups opened inside it and not closed yet. -/
def skipGroup : Nat → Nat → Bytes → Option Bytes
  | 0, _, _ => none
  | fuel + 1, depth, bs =>
    match getVarint bs with
    | none => none
    | some (tag, rest) =>
      if tag % 8 = 0 then
        match getVarint rest with
        | none => none
        | some (_, r) => skipGroup fuel depth r
      else if tag % 8 = 1 then
        if rest.length < 8 then none else skipGroup fuel depth (rest.drop 8)
      else if tag % 8 = 2 then
        match getVarint rest with
        | none => none
        | some (len, r) => if r.length < len then none else skipGroup fuel depth (r.drop len)
      else if tag % 8 = 3 then skipGroup fuel (depth + 1) rest
      else if tag % 8 = 4 then
        if depth = 0 then some rest else skipGroup fuel (depth - 1) rest
      else if tag % 8 = 5 then
        if rest.length < 4 then none else skipGroup fuel depth (rest.drop 4)
      else none

/-- Reads one protobuf field: the field number, the wire type, the bytes of a
length-delimited value (empty for the other wire types) and the rest of the input. A
group is skipped as a whole; an end-group tag outside a group is an error. -/
def getField (bs : Bytes) : Option (Nat × Nat × Bytes × Bytes) :=
  match getVarint bs with
  | none => none
  | some (tag, rest) =>
    if tag / 8 = 0 then none
    else if tag % 8 = 0 then
      match getVarint rest with
      | none => none
      | some (_, r) => some (tag / 8, 0, [], r)
    else if tag % 8 = 1 then
      if rest.length < 8 then none else some (tag / 8, 1, [], rest.drop 8)
    else if tag % 8 = 2 then
      match getVarint rest with
      | none => none
      | some (len, r) => if r.length < len then none else some (tag / 8, 2, r.take len, r.drop len)
    else if tag % 8 = 3 then
      match skipGroup rest.length 0 rest with
      | none => none
      | some r => some (tag / 8, 3, [], r)
    else if tag % 8 = 5 then
      if rest.length < 4 then none else some (tag / 8, 5, [], rest.drop 4)
    else none

/-- Modelled from the spec: the decoding of the inner named payload of a frame (the
protobuf message `lq.Wrapper`, whose declaration is not part of the sources). Field 1 is
the name, field 2 the data, the last occurrence wins and other fields are skipped. -/
def getWrapper : Nat → Bytes → Bytes × Bytes → Option (Bytes × Bytes)
  | _, [], acc => some acc
  | 0, _ :: _, _ => none
  | fuel + 1, b :: bs, acc =>
    match getField (b :: bs) with
    | none => none
    | some (field, wireType, value, rest) =>
      getWrapper fuel rest
        (if field = 1 ∧ wireType = 2 then (value, acc.2)
         else if field = 2 ∧ wireType = 2 then (acc.1, value)
         else acc)

/-- Modelled from the spec: the inner named payload of a frame, "a structured encoding
carrying name and payload", whose declaration (the protobuf message `lq.Wrapper` with
the string field 1 `name` and the bytes field 2 `data`) is not part of the sources. The
encoding is the proto3 wire format: a field that is empty is left out. -/
def putWrapper (name data : Bytes) : Bytes :=
  (if name = [] then [] else 10 :: (putVarint 10 name.length ++ name)) ++
    (if data = [] then [] else 18 :: (putVarint 10 data.length ++ data))

/-- Modelled from the spec: the "payload encode/decode capability" the transport consumes,
as the protobuf wire format. A message is given by its wire bytes: marshalling and
unmarshalling check that the bytes are a sequence of well-formed fields, and the wrapper
is `putWrapper` and `getWrapper`. -/
def wireProto : Proto Bytes where
  Marshal := fun m =>
    match getWrapper m.length m ([], []) with
    | none => .error ⟨1⟩
    | some _ => .ok m
  MarshalWrapper := fun name data => .ok (putWrapper name data)
  UnmarshalWrapper := fun raw =>
    match getWrapper raw.length raw ([], []) with
    | none => .error ⟨2⟩
    | some w => .ok w
  Unmarshal := fun _ data =>
    match getWrapper data.length data ([], []) with
    | none => .error ⟨3⟩
    | some _ => .ok data

/-- Whether an event is a send or a close on a reply channel. -/
def isSinkEvent {Msg : Type} : Event Msg → Bool
  | .chanSend _ _ => true
  | .chanClose _ => true
  | _ => false

/-- The events of a run that reach a reply channel. -/
def sinkEvents {Msg : Type} (events : List (Event Msg)) : List (Event Msg) :=
  events.filter isSinkEvent

/-! ## Concrete sessions and frames -/

/-- An open client with two pending calls, under the message indices 5 and 4. -/
def pendingClient : WebSocketClient :=
  { closed := false, messageIndex := 5, respMessageChanMap := [(5, ⟨1, 7⟩), (4, ⟨2, 7⟩)] }

/-- A response to call 5 whose wrapper carries the two data bytes `8, 1`. -/
def replyFrame : Bytes := [3, 5, 0, 18, 2, 8, 1]

/-- A response to call 5 whose wrapper carries a truncated varint as data. -/
def brokenReplyFrame : Bytes := [3, 5, 0, 18, 1, 128]

/-- A response to call 9, which is not pending in `pendingClient`. -/
def orphanFrame : Bytes := [3, 9, 0, 18, 2, 8, 1]

/-- The client on which `Close` has been called before any call was sent. -/
def closedClient : WebSocketClient := (Close NewWebSocketClient none).1

/-- The trace of `n` sends of an empty request under an empty name, each written
successfully and none answered. -/
def sendsWithoutReply (n : Nat) : List (Action Bytes) :=
  List.replicate n (.send [] [] ⟨1, 7⟩ none)

/-- The invariant of a window of sends for the message index `k`: the counter is below
60007 and, if `k` is pending, the counter is `m` assignments past `k` for some `m < n`. -/
def Recent (c : WebSocketClient) (k n : Nat) : Prop :=
  c.messageIndex < 60007 ∧
    (Load c.respMessageChanMap k = none ∨ ∃ m, m < n ∧ c.messageIndex = (k + m) % 60007)

/-! ## The registry -/

theorem Load_Delete_self (m : List (Nat × Chan)) (key : Nat) : Load (Delete m key) key = none := by
  induction m with
  | nil => rfl
  | cons e rest ih =>
    obtain ⟨k, v⟩ := e
    by_cases h : k = key
    · simp [Delete, h, ih]
    · simp [Delete, Load, h, ih]

theorem Load_Delete_ne (m : List (Nat × Chan)) (key k1 : Nat) (hne : k1 ≠ key) :
    Load (Delete m key) k1 = Load m k1 := by
  induction m with
  | nil => rfl
  | cons e rest ih =>
    obtain ⟨k, v⟩ := e
    by_cases h : k = key
    · have h1 : ¬ k = k1 := fun h2 => hne (h2.symm.trans h)
      simp only [Delete, Load, h, if_true]
      rw [ih, if_neg (fun h3 => hne h3.symm)]
    · by_cases h2 : k = k1
      · subst h2
        simp only [Delete, h, if_false, Load, if_true]
      · simp only [Delete, h, if_false, Load, h2, ih]

theorem Load_Store_self (m : List (Nat × Chan)) (key : Nat) (v : Chan) :
    Load (Store m key v) key = some v := by
  simp [Store, Load]

theorem Load_Store_ne (m : List (Nat × Chan)) (key k1 : Nat) (v : Chan) (hne : k1 ≠ key) :
    Load (Store m key v) k1 = Load m k1 := by
  have h : ¬ key = k1 := fun h => hne h.symm
  simp [Store, Load, h, Load_Delete_ne m key k1 hne]

/-! ## The message index on the wire -/

theorem Uint16_PutUint16 (s : Nat) (hs : s < 65536) : Uint16 (PutUint16 s) = s := by
  simp only [Uint16, PutUint16, List.getD_cons_zero, List.getD_cons_succ]
  omega

/-! ## The read loop -/

theorem runBody_short {Msg : Type} (P : Proto Msg) (c : WebSocketClient) (data : Bytes)
    (hlen : data.length ≤ 3) :
    runBody P c (.ok data) = ⟨c, [.logTooShort data], false⟩ := by
  simp only [runBody, hlen, if_true]

theorem runBody_hit {Msg : Type} (P : Proto Msg) (c : WebSocketClient) (data : Bytes)
    (s : Nat) (ch : Chan) (hlen : 3 < data.length) (hkind : data.getD 0 0 = messageTypeResponse)
    (hs : s < 65536) (hseq : (data.drop 1).take 2 = PutUint16 s)
    (hreg : Load c.respMessageChanMap s = some ch) :
    runBody P c (.ok data) =
      match UnwrapMessage P (data.drop 3) ch.elemType with
      | .error err =>
        ⟨{ c with respMessageChanMap := Delete c.respMessageChanMap s },
          [.logUnwrapData err, .chanClose ch], false⟩
      | .ok respMessage =>
        ⟨{ c with respMessageChanMap := Delete c.respMessageChanMap s },
          [.chanSend ch respMessage], false⟩ := by
  have h1 : ¬ data.length ≤ 3 := Nat.not_le.mpr hlen
  simp only [runBody, h1, if_false, hkind, if_true, hseq, Uint16_PutUint16 s hs, hreg]

theorem runBody_miss {Msg : Type} (P : Proto Msg) (c : WebSocketClient) (data : Bytes)
    (hlen : 3 < data.length) (hkind : data.getD 0 0 = messageTypeResponse)
    (hmiss : Load c.respMessageChanMap (Uint16 ((data.drop 1).take 2)) = none) :
    runBody P c (.ok data) = ⟨c, [.logNotFound (Uint16 ((data.drop 1).take 2))], false⟩ := by
  have h1 : ¬ data.length ≤ 3 := Nat.not_le.mpr hlen
  simp only [runBody, h1, if_false, hkind, if_true, hmiss]

theorem run_cons_continue {Msg : Type} (P : Proto Msg) (c : WebSocketClient)
    (read : Except GoError Bytes) (rest : List (Except GoError Bytes))
    (hopen : c.closed = false) (hret : (runBody P c read).returned = false) :
    run P c (read :: rest) =
      ((run P (runBody P c read).client rest).1,
        (runBody P c read).events ++ (run P (runBody P c read).client rest).2) := by
  simp [run, hopen, hret]

theorem run_single {Msg : Type} (P : Proto Msg) (c : WebSocketClient)
    (read : Except GoError Bytes) (hopen : c.closed = false) :
    run P c [read] = ((runBody P c read).client, (runBody P c read).events) := by
  by_cases hret : (runBody P c read).returned = true
  · simp [run, hopen, hret]
  · simp [run, hopen, hret]

/-- C1: a response frame longer than 3 bytes, whose bytes 1-2 are the little-endian
message index `s` of a pending call and whose payload unwraps into the registered reply
type, makes one pass of the read loop remove the entry of `s`, send the decoded reply
on the channel registered under `s` and on nothing else, and leave every other entry,
the counter and the closed flag as they were. -/
theorem run_response_delivered {Msg : Type} (P : Proto Msg) (c : WebSocketClient)
    (data : Bytes) (s : Nat) (ch : Chan) (m : Msg)
    (hlen : 3 < data.length) (hkind : data.getD 0 0 = messageTypeResponse)
    (hs : s < 65536) (hseq : (data.drop 1).take 2 = PutUint16 s)
    (hreg : Load c.respMessageChanMap s = some ch)
    (hdec : UnwrapMessage P (data.drop 3) ch.elemType = .ok m) :
    (runBody P c (.ok data)).events = [.chanSend ch m] ∧
    (runBody P c (.ok data)).returned = false ∧
    Load (runBody P c (.ok data)).client.respMessageChanMap s = none ∧
    (∀ k, k ≠ s →
      Load (runBody P c (.ok data)).client.respMessageChanMap k = Load c.respMessageChanMap k) ∧
    (runBody P c (.ok data)).client.messageIndex = c.messageIndex ∧
    (runBody P c (.ok data)).client.closed = c.closed := by
  rw [runBody_hit P c data s ch hlen hkind hs hseq hreg, hdec]
  exact ⟨rfl, rfl, Load_Delete_self _ s, fun k hk => Load_Delete_ne _ s k hk, rfl, rfl⟩

theorem run_response_delivered_witness :
    (runBody wireProto pendingClient (.ok replyFrame)).events = [.chanSend ⟨1, 7⟩ [8, 1]] ∧
    Load (runBody wireProto pendingClient (.ok replyFrame)).client.respMessageChanMap 5 = none :=
  have h := run_response_delivered wireProto pendingClient replyFrame 5 ⟨1, 7⟩ [8, 1]
    (by decide) (by decide) (by decide) (by decide) (by decide) (by decide)
  ⟨h.1, h.2.2.1⟩

/-- C7: a response frame longer than 3 bytes whose message index `s` is pending but whose
payload fails to unwrap into the registered reply type makes one pass of the read loop
remove the entry of `s` and close the channel registered under `s`, sending nothing;
every other entry, the counter and the closed flag are as they were and the loop goes on. -/
theorem run_response_decode_error {Msg : Type} (P : Proto Msg) (c : WebSocketClient)
    (data : Bytes) (s : Nat) (ch : Chan) (err : GoError)
    (hlen : 3 < data.length) (hkind : data.getD 0 0 = messageTypeResponse)
    (hs : s < 65536) (hseq : (data.drop 1).take 2 = PutUint16 s)
    (hreg : Load c.respMessageChanMap s = some ch)
    (hdec : UnwrapMessage P (data.drop 3) ch.elemType = .error err) :
    (runBody P c (.ok data)).events = [.logUnwrapData err, .chanClose ch] ∧
    sinkEvents (runBody P c (.ok data)).events = [.chanClose ch] ∧
    (runBody P c (.ok data)).returned = false ∧
    Load (runBody P c (.ok data)).client.respMessageChanMap s = none ∧
    (∀ k, k ≠ s →
      Load (runBody P c (.ok data)).client.respMessageChanMap k = Load c.respMessageChanMap k) ∧
    (runBody P c (.ok data)).client.messageIndex = c.messageIndex ∧
    (runBody P c (.ok data)).client.closed = c.closed := by
  rw [runBody_hit P c data s ch hlen hkind hs hseq hreg, hdec]
  exact ⟨rfl, rfl, rfl, Load_Delete_self _ s, fun k hk => Load_Delete_ne _ s k hk, rfl, rfl⟩

theorem run_response_decode_error_witness :
    (runBody wireProto pendingClient (.ok brokenReplyFrame)).events =
      [.logUnwrapData ⟨3⟩, .chanClose ⟨1, 7⟩] ∧
    Load (runBody wireProto pendingClient (.ok brokenReplyFrame)).client.respMessageChanMap 4 =
      some ⟨2, 7⟩ :=
  have h := run_response_decode_error wireProto pendingClient brokenReplyFrame 5 ⟨1, 7⟩ ⟨3⟩
    (by decide) (by decide) (by decide) (by decide) (by decide) (by decide)
  ⟨h.1, (h.2.2.2.2.1 4 (by decide)).trans (by decide)⟩

/-- C5: a frame of length 0, 1 or 2 is discarded by one pass of the read loop: the client
(registry, counter, closed flag) is unchanged, the only event is the log line, the loop
does not return, the frames read afterwards are processed as if the short frame had not
come, and a response that follows for a pending call is delivered on its channel. -/
theorem run_short_frame_dropped {Msg : Type} (P : Proto Msg) (c : WebSocketClient)
    (data : Bytes) (hlen : data.length < 3) :
    runBody P c (.ok data) = ⟨c, [.logTooShort data], false⟩ ∧
    (∀ rest, c.closed = false →
      run P c (.ok data :: rest) = ((run P c rest).1, .logTooShort data :: (run P c rest).2)) ∧
    (∀ (resp : Bytes) (s : Nat) (ch : Chan) (m : Msg), c.closed = false →
      3 < resp.length → resp.getD 0 0 = messageTypeResponse → s < 65536 → (resp.drop 1).take 2 = PutUint16 s →
      Load c.respMessageChanMap s = some ch →
      UnwrapMessage P (resp.drop 3) ch.elemType = .ok m →
      (run P c [.ok data, .ok resp]).2 = [.logTooShort data, .chanSend ch m]) := by
  have hbody : runBody P c (.ok data) = ⟨c, [.logTooShort data], false⟩ :=
    runBody_short P c data (by omega)
  have hrun : ∀ rest, c.closed = false →
      run P c (.ok data :: rest) = ((run P c rest).1, .logTooShort data :: (run P c rest).2) := by
    intro rest hopen
    rw [run_cons_continue P c (.ok data) rest hopen (by rw [hbody]), hbody]
    rfl
  refine ⟨hbody, hrun, ?_⟩
  intro resp s ch m hopen hl hk hs hseq hreg hdec
  rw [hrun [.ok resp] hopen, run_single P c (.ok resp) hopen,
    runBody_hit P c resp s ch hl hk hs hseq hreg, hdec]

theorem run_short_frame_dropped_witness :
    runBody wireProto pendingClient (.ok [3, 5]) = ⟨pendingClient, [.logTooShort [3, 5]], false⟩ ∧
    (run wireProto pendingClient [.ok [3, 5], .ok replyFrame]).2 =
      [.logTooShort [3, 5], .chanSend ⟨1, 7⟩ [8, 1]] :=
  have h := run_short_frame_dropped wireProto pendingClient [3, 5] (by decide)
  ⟨h.1, h.2.2 replyFrame 5 ⟨1, 7⟩ [8, 1] (by decide) (by decide) (by decide) (by decide)
    (by decide) (by decide) (by decide)⟩

/-- C6: a response frame whose message index has no entry in the registry is dropped by
one pass of the read loop: the client (every pending entry, the counter, the closed flag)
is unchanged, nothing is sent or closed on any channel, the loop does not return, and
the frames read afterwards change the client and reach the channels exactly as they
would have without the orphan frame. -/
theorem run_orphan_response_dropped {Msg : Type} (P : Proto Msg) (c : WebSocketClient)
    (data : Bytes) (hkind : data.getD 0 0 = messageTypeResponse)
    (hmiss : Load c.respMessageChanMap (Uint16 ((data.drop 1).take 2)) = none) :
    (runBody P c (.ok data)).client = c ∧
    sinkEvents (runBody P c (.ok data)).events = [] ∧
    (runBody P c (.ok data)).returned = false ∧
    (∀ rest, c.closed = false →
      (run P c (.ok data :: rest)).1 = (run P c rest).1 ∧
      sinkEvents (run P c (.ok data :: rest)).2 = sinkEvents (run P c rest).2) := by
  have hbody : (runBody P c (.ok data)).client = c ∧
      sinkEvents (runBody P c (.ok data)).events = [] ∧
      (runBody P c (.ok data)).returned = false := by
    by_cases hlen : data.length ≤ 3
    · rw [runBody_short P c data hlen]
      exact ⟨rfl, rfl, rfl⟩
    · rw [runBody_miss P c data (Nat.not_le.mp hlen) hkind hmiss]
      exact ⟨rfl, rfl, rfl⟩
  refine ⟨hbody.1, hbody.2.1, hbody.2.2, ?_⟩
  intro rest hopen
  rw [run_cons_continue P c (.ok data) rest hopen hbody.2.2, hbody.1]
  refine ⟨rfl, ?_⟩
  show sinkEvents ((runBody P c (.ok data)).events ++ (run P c rest).2) = _
  unfold sinkEvents at hbody ⊢
  rw [List.filter_append, hbody.2.1, List.nil_append]

theorem run_orphan_response_dropped_witness :
    (runBody wireProto pendingClient (.ok orphanFrame)).client = pendingClient ∧
    sinkEvents (run wireProto pendingClient [.ok orphanFrame, .ok replyFrame]).2 =
      [.chanSend ⟨1, 7⟩ [8, 1]] :=
  have h := run_orphan_response_dropped wireProto pendingClient orphanFrame (by decide) (by decide)
  ⟨h.1, ((h.2.2.2 [.ok replyFrame] (by decide)).2).trans (by decide)⟩

/-- C10: a response frame that is exactly the 3-byte header for a pending message index
`s`, with nothing after it, is discarded as too short (the check is `len(data) <= 3`):
the client is unchanged, the entry of `s` stays in the registry and nothing is sent or
closed on any channel. -/
theorem run_header_only_response_dropped {Msg : Type} (P : Proto Msg) (c : WebSocketClient)
    (s : Nat) (ch : Chan) (hreg : Load c.respMessageChanMap s = some ch) :
    runBody P c (.ok (messageTypeResponse :: PutUint16 s)) =
      ⟨c, [.logTooShort (messageTypeResponse :: PutUint16 s)], false⟩ ∧
    Load (runBody P c (.ok (messageTypeResponse :: PutUint16 s))).client.respMessageChanMap s
      = some ch ∧
    sinkEvents (runBody P c (.ok (messageTypeResponse :: PutUint16 s))).events = [] := by
  have hbody := runBody_short P c (messageTypeResponse :: PutUint16 s) (by simp [PutUint16])
  rw [hbody]
  exact ⟨rfl, hreg, rfl⟩

theorem run_header_only_response_dropped_witness :
    runBody wireProto pendingClient (.ok [3, 5, 0]) =
      ⟨pendingClient, [.logTooShort [3, 5, 0]], false⟩ ∧
    Load (runBody wireProto pendingClient (.ok [3, 5, 0])).client.respMessageChanMap 5 =
      some ⟨1, 7⟩ :=
  have h := run_header_only_response_dropped wireProto pendingClient 5 ⟨1, 7⟩ (by decide)
  ⟨h.1, h.2.1⟩

/-! ## The write path -/

theorem send_wrap_error {Msg : Type} (P : Proto Msg) (c : WebSocketClient) (name : Bytes)
    (reqMessage : Msg) (ch : Chan) (wsWrite : Option GoError) (err : GoError)
    (hwrap : WrapMessage P name reqMessage = .error err) :
    send P c name reqMessage ch wsWrite = ⟨c, none, some err⟩ := by
  simp only [send, hwrap]

theorem send_write_error {Msg : Type} (P : Proto Msg) (c : WebSocketClient) (name : Bytes)
    (reqMessage : Msg) (ch : Chan) (err : GoError) (data : Bytes)
    (hwrap : WrapMessage P name reqMessage = .ok data) :
    send P c name reqMessage ch (some err) =
      ⟨{ c with messageIndex := (c.messageIndex + 1) % 65536 % 60007 },
        some (requestFrame ((c.messageIndex + 1) % 65536 % 60007) data), some err⟩ := by
  simp only [send, hwrap]

theorem send_written {Msg : Type} (P : Proto Msg) (c : WebSocketClient) (name : Bytes)
    (reqMessage : Msg) (ch : Chan) (data : Bytes)
    (hwrap : WrapMessage P name reqMessage = .ok data) :
    send P c name reqMessage ch none =
      ⟨{ c with
          messageIndex := (c.messageIndex + 1) % 65536 % 60007,
          respMessageChanMap :=
            Store c.respMessageChanMap ((c.messageIndex + 1) % 65536 % 60007) ch },
        some (requestFrame ((c.messageIndex + 1) % 65536 % 60007) data), none⟩ := by
  simp only [send, hwrap]

theorem send_messageIndex_frame {Msg : Type} (P : Proto Msg) (c : WebSocketClient)
    (name : Bytes) (reqMessage : Msg) (ch : Chan) (wsWrite : Option GoError) (data : Bytes)
    (hwrap : WrapMessage P name reqMessage = .ok data) :
    (send P c name reqMessage ch wsWrite).client.messageIndex
      = (c.messageIndex + 1) % 65536 % 60007 ∧
    (send P c name reqMessage ch wsWrite).frame
      = some (requestFrame ((c.messageIndex + 1) % 65536 % 60007) data) := by
  cases wsWrite with
  | none => rw [send_written P c name reqMessage ch data hwrap]; exact ⟨rfl, rfl⟩
  | some err => rw [send_write_error P c name reqMessage ch err data hwrap]; exact ⟨rfl, rfl⟩

theorem send_closed {Msg : Type} (P : Proto Msg) (c : WebSocketClient) (name : Bytes)
    (reqMessage : Msg) (ch : Chan) (wsWrite : Option GoError) :
    (send P c name reqMessage ch wsWrite).client.closed = c.closed := by
  unfold send
  cases WrapMessage P name reqMessage with
  | error err => rfl
  | ok data => cases wsWrite <;> rfl

/-- C8: when `send` returns an error, the registry is exactly as it was before the call,
and the error is the one of the failed step: a request that cannot be wrapped makes
`send` return the marshalling error, and a failed write of a wrapped request makes
`send` return the write error. -/
theorem send_failure_keeps_registry {Msg : Type} (P : Proto Msg) (c : WebSocketClient)
    (name : Bytes) (reqMessage : Msg) (ch : Chan) (wsWrite : Option GoError) (err : GoError)
    (hfail : (send P c name reqMessage ch wsWrite).err = some err) :
    (send P c name reqMessage ch wsWrite).client.respMessageChanMap = c.respMessageChanMap ∧
    (WrapMessage P name reqMessage = .error err ∨
      ((∃ data, WrapMessage P name reqMessage = .ok data) ∧ wsWrite = some err)) ∧
    (∀ e, WrapMessage P name reqMessage = .error e →
      (send P c name reqMessage ch wsWrite).err = some e) ∧
    (∀ e data, WrapMessage P name reqMessage = .ok data → wsWrite = some e →
      (send P c name reqMessage ch wsWrite).err = some e) := by
  refine ⟨?_, ?_, ?_, ?_⟩
  · cases hwrap : WrapMessage P name reqMessage with
    | error e => rw [send_wrap_error P c name reqMessage ch wsWrite e hwrap]
    | ok data =>
      cases wsWrite with
      | none =>
        rw [send_written P c name reqMessage ch data hwrap] at hfail
        exact absurd hfail (by simp)
      | some e => rw [send_write_error P c name reqMessage ch e data hwrap]
  · cases hwrap : WrapMessage P name reqMessage with
    | error e =>
      rw [send_wrap_error P c name reqMessage ch wsWrite e hwrap] at hfail
      simp only [Option.some.injEq] at hfail
      exact Or.inl (by rw [hfail])
    | ok data =>
      cases wsWrite with
      | none =>
        rw [send_written P c name reqMessage ch data hwrap] at hfail
        exact absurd hfail (by simp)
      | some e =>
        rw [send_write_error P c name reqMessage ch e data hwrap] at hfail
        simp only [Option.some.injEq] at hfail
        exact Or.inr ⟨⟨data, rfl⟩, by rw [hfail]⟩
  · intro e hwrap
    rw [send_wrap_error P c name reqMessage ch wsWrite e hwrap]
  · intro e data hwrap hw
    subst hw
    rw [send_write_error P c name reqMessage ch e data hwrap]

theorem send_failure_keeps_registry_witness :
    (send wireProto pendingClient [46, 108, 113] [8, 1] ⟨3, 7⟩ (some ⟨4⟩)).err = some ⟨4⟩ ∧
    (send wireProto pendingClient [46, 108, 113] [8, 1] ⟨3, 7⟩ (some ⟨4⟩)).client.respMessageChanMap
      = pendingClient.respMessageChanMap :=
  ⟨by decide,
    (send_failure_keeps_registry wireProto pendingClient [46, 108, 113] [8, 1] ⟨3, 7⟩ (some ⟨4⟩)
      ⟨4⟩ (by decide)).1⟩

/-- C9, as the code has it: `send` does not look at the closed flag, so on a client whose
`Close` has been called it does what it does on an open client with the same counter and
registry. When the write on the closed stream fails, `send` returns that error and adds
no entry to the registry, but the counter has been advanced if the request could be
wrapped; the client stays closed. -/
theorem send_after_close {Msg : Type} (P : Proto Msg) (c : WebSocketClient) (name : Bytes)
    (reqMessage : Msg) (ch : Chan) (err : GoError) (hclosed : c.closed = true) :
    (∀ wsWrite,
      send P c name reqMessage ch wsWrite =
        { send P { c with closed := false } name reqMessage ch wsWrite with
          client := { (send P { c with closed := false } name reqMessage ch wsWrite).client with
            closed := true } }) ∧
    (send P c name reqMessage ch (some err)).err ≠ none ∧
    (send P c name reqMessage ch (some err)).client.respMessageChanMap = c.respMessageChanMap ∧
    (send P c name reqMessage ch (some err)).client.closed = true ∧
    (∀ data, WrapMessage P name reqMessage = .ok data →
      (send P c name reqMessage ch (some err)).err = some err ∧
      (send P c name reqMessage ch (some err)).client.messageIndex
        = (c.messageIndex + 1) % 65536 % 60007) := by
  refine ⟨?_, ?_, ?_, ?_, ?_⟩
  · intro wsWrite
    obtain ⟨cl, idx, reg⟩ := c
    simp only at hclosed
    subst hclosed
    unfold send
    cases WrapMessage P name reqMessage with
    | error e => rfl
    | ok data => cases wsWrite <;> rfl
  · cases hwrap : WrapMessage P name reqMessage with
    | error e => rw [send_wrap_error P c name reqMessage ch (some err) e hwrap]; simp
    | ok data => rw [send_write_error P c name reqMessage ch err data hwrap]; simp
  · cases hwrap : WrapMessage P name reqMessage with
    | error e => rw [send_wrap_error P c name reqMessage ch (some err) e hwrap]
    | ok data => rw [send_write_error P c name reqMessage ch err data hwrap]
  · rw [send_closed, hclosed]
  · intro data hwrap
    rw [send_write_error P c name reqMessage ch err data hwrap]
    exact ⟨rfl, rfl⟩

theorem send_after_close_witness :
    closedClient.closed = true ∧
    (send wireProto closedClient [46, 108, 113] [8, 1] ⟨3, 7⟩ (some ⟨4⟩)).client.respMessageChanMap
      = closedClient.respMessageChanMap :=
  ⟨by decide,
    (send_after_close wireProto closedClient [46, 108, 113] [8, 1] ⟨3, 7⟩ ⟨4⟩ (by decide)).2.2.1⟩

/-- C9 as stated fails: on the client closed before any call was sent, a send whose write
fails leaves the counter at 1, not at 0. -/
theorem send_after_close_advances_counter :
    closedClient.closed = true ∧ closedClient.messageIndex = 0 ∧
    (send wireProto closedClient [46, 108, 113] [8, 1] ⟨3, 7⟩ (some ⟨4⟩)).client.messageIndex = 1 ∧
    (send wireProto closedClient [46, 108, 113] [8, 1] ⟨3, 7⟩ (some ⟨4⟩)).client.messageIndex
      ≠ closedClient.messageIndex := by
  decide

/-! ## The counter -/

theorem runBody_messageIndex {Msg : Type} (P : Proto Msg) (c : WebSocketClient)
    (read : Except GoError Bytes) :
    (runBody P c read).client.messageIndex = c.messageIndex := by
  unfold runBody
  split
  · split <;> rfl
  · split
    · rfl
    · split
      · simp only
        split
        · rfl
        · split <;> rfl
      · rfl

theorem send_messageIndex_lt {Msg : Type} (P : Proto Msg) (c : WebSocketClient) (name : Bytes)
    (reqMessage : Msg) (ch : Chan) (wsWrite : Option GoError) (h : c.messageIndex < 60007) :
    (send P c name reqMessage ch wsWrite).client.messageIndex < 60007 := by
  cases hwrap : WrapMessage P name reqMessage with
  | error e => rw [send_wrap_error P c name reqMessage ch wsWrite e hwrap]; exact h
  | ok data =>
    rw [(send_messageIndex_frame P c name reqMessage ch wsWrite data hwrap).1]
    exact Nat.mod_lt _ (by decide)

theorem reachable_messageIndex_lt {Msg : Type} (P : Proto Msg) (c : WebSocketClient)
    (h : Reachable P c) : c.messageIndex < 60007 := by
  induction h with
  | new => decide
  | step c a _ ih =>
    cases a with
    | send name reqMessage ch wsWrite => exact send_messageIndex_lt P c name reqMessage ch wsWrite ih
    | read read =>
      show (runBody P c read).client.messageIndex < 60007
      rw [runBody_messageIndex]; exact ih
    | close wsClose => exact ih

theorem requestFrame_index (s : Nat) (data : Bytes) :
    ((requestFrame s data).drop 1).take 2 = PutUint16 s := by
  simp [requestFrame, PutUint16]

/-- C2: on a client reachable from `NewWebSocketClient` with counter `k`, a send whose
request is wrapped successfully sets the counter to `(k + 1) % 60007`, with no 16-bit
wrap-around, and hands to the stream the request frame whose bytes 1-2 are that number in
little-endian; a second send right after it carries `((k + 1) % 60007 + 1) % 60007`. -/
theorem send_sequence_number {Msg : Type} (P : Proto Msg) (c : WebSocketClient)
    (hreach : Reachable P c) (name : Bytes) (reqMessage : Msg) (ch : Chan)
    (wsWrite : Option GoError) (data : Bytes)
    (hwrap : WrapMessage P name reqMessage = .ok data) :
    (send P c name reqMessage ch wsWrite).client.messageIndex = (c.messageIndex + 1) % 60007 ∧
    (send P c name reqMessage ch wsWrite).frame
      = some (requestFrame ((c.messageIndex + 1) % 60007) data) ∧
    Uint16 (((requestFrame ((c.messageIndex + 1) % 60007) data).drop 1).take 2)
      = (c.messageIndex + 1) % 60007 ∧
    (∀ (name2 : Bytes) (reqMessage2 : Msg) (ch2 : Chan) (wsWrite2 : Option GoError)
      (data2 : Bytes), WrapMessage P name2 reqMessage2 = .ok data2 →
      (send P (send P c name reqMessage ch wsWrite).client name2 reqMessage2 ch2 wsWrite2).frame
        = some (requestFrame (((c.messageIndex + 1) % 60007 + 1) % 60007) data2) ∧
      (send P (send P c name reqMessage ch wsWrite).client name2 reqMessage2 ch2
        wsWrite2).client.messageIndex = ((c.messageIndex + 1) % 60007 + 1) % 60007) := by
  have hk : c.messageIndex < 60007 := reachable_messageIndex_lt P c hreach
  have hmod : (c.messageIndex + 1) % 65536 % 60007 = (c.messageIndex + 1) % 60007 := by omega
  have h1 := send_messageIndex_frame P c name reqMessage ch wsWrite data hwrap
  rw [hmod] at h1
  refine ⟨h1.1, h1.2, ?_, ?_⟩
  · rw [requestFrame_index]
    exact Uint16_PutUint16 _ (by omega)
  · intro name2 reqMessage2 ch2 wsWrite2 data2 hwrap2
    have h2 := send_messageIndex_frame P (send P c name reqMessage ch wsWrite).client
      name2 reqMessage2 ch2 wsWrite2 data2 hwrap2
    rw [h1.1] at h2
    have hmod2 : ((c.messageIndex + 1) % 60007 + 1) % 65536 % 60007
        = ((c.messageIndex + 1) % 60007 + 1) % 60007 := by omega
    rw [hmod2] at h2
    exact ⟨h2.2, h2.1⟩

theorem send_sequence_number_witness :
    (send wireProto NewWebSocketClient [46, 108, 113] [8, 1] ⟨1, 7⟩ none).client.messageIndex
      = (NewWebSocketClient.messageIndex + 1) % 60007 ∧
    (send wireProto NewWebSocketClient [46, 108, 113] [8, 1] ⟨1, 7⟩ none).frame
      = some (requestFrame ((NewWebSocketClient.messageIndex + 1) % 60007)
          [10, 3, 46, 108, 113, 18, 2, 8, 1]) :=
  have h := send_sequence_number wireProto NewWebSocketClient Reachable.new [46, 108, 113] [8, 1]
    ⟨1, 7⟩ none [10, 3, 46, 108, 113, 18, 2, 8, 1] (by decide)
  ⟨h.1, h.2.1⟩

/-! ## The envelope -/

theorem decodeFrame_requestFrame {Msg : Type} (P : Proto Msg) (s : Nat) (wrapped : Bytes)
    (hs : s < 65536) (hne : wrapped ≠ []) :
    decodeFrame P (requestFrame s wrapped) =
      match UnwrapData P wrapped with
      | .error _ => none
      | .ok (name, payload) => some (messageTypeRequest, s, name, payload) := by
  have hlen : ¬ (requestFrame s wrapped).length ≤ 3 := by
    cases wrapped with
    | nil => exact absurd rfl hne
    | cons b rest => simp [requestFrame, PutUint16]
  have hdrop : (requestFrame s wrapped).drop 3 = wrapped := by
    simp [requestFrame, PutUint16]
  have hkind : (requestFrame s wrapped).getD 0 0 = messageTypeRequest := by
    simp [requestFrame]
  simp only [decodeFrame, hlen, if_false, hdrop, hkind, requestFrame_index,
    Uint16_PutUint16 s hs]

/-- C4, as the code has it: a request frame built by `send` for the message index `s`, the
name `n` and the payload bytes `p` decodes back, by the rules of the read side, to the kind
Request, `s`, `n` and `p`, provided the wrapped payload (which protobuf decodes back to `n`
and `p`) is not empty; a frame whose wrapped payload is empty is 3 bytes long and the
length check of the read side discards it. The frame `send` hands to the stream is such
a request frame for the counter it has just set. -/
theorem request_frame_roundtrip {Msg : Type} (P : Proto Msg) (s : Nat) (name : Bytes)
    (reqMessage : Msg) (data wrapped : Bytes) (hs : s < 65536)
    (hmarshal : P.Marshal reqMessage = .ok data)
    (hwrapper : P.MarshalWrapper name data = .ok wrapped)
    (hproto : P.UnmarshalWrapper wrapped = .ok (name, data))
    (hne : wrapped ≠ []) :
    WrapMessage P name reqMessage = .ok wrapped ∧
    decodeFrame P (requestFrame s wrapped) = some (messageTypeRequest, s, name, data) ∧
    (∀ (c : WebSocketClient) (ch : Chan) (wsWrite : Option GoError),
      (send P c name reqMessage ch wsWrite).frame
        = some (requestFrame (send P c name reqMessage ch wsWrite).client.messageIndex wrapped) ∧
      decodeFrame P (requestFrame (send P c name reqMessage ch wsWrite).client.messageIndex wrapped)
        = some (messageTypeRequest, (send P c name reqMessage ch wsWrite).client.messageIndex,
            name, data)) ∧
    (∀ s1, decodeFrame P (requestFrame s1 []) = none) := by
  have hwrap : WrapMessage P name reqMessage = .ok wrapped := by
    simp only [WrapMessage, hmarshal, hwrapper]
  have hunwrap : UnwrapData P wrapped = .ok (name, data) := by
    simp only [UnwrapData, hproto]
  have hdec : ∀ s1, s1 < 65536 →
      decodeFrame P (requestFrame s1 wrapped) = some (messageTypeRequest, s1, name, data) := by
    intro s1 hs1
    rw [decodeFrame_requestFrame P s1 wrapped hs1 hne, hunwrap]
  refine ⟨hwrap, hdec s hs, ?_, ?_⟩
  · intro c ch wsWrite
    have h := send_messageIndex_frame P c name reqMessage ch wsWrite wrapped hwrap
    rw [h.1, h.2]
    refine ⟨rfl, hdec _ ?_⟩
    have : (c.messageIndex + 1) % 65536 % 60007 < 60007 := Nat.mod_lt _ (by decide)
    omega
  · intro s1
    simp [decodeFrame, requestFrame, PutUint16]

theorem request_frame_roundtrip_witness :
    decodeFrame wireProto (requestFrame 60006 [10, 3, 46, 108, 113, 18, 2, 8, 1])
      = some (2, 60006, [46, 108, 113], [8, 1]) :=
  (request_frame_roundtrip wireProto 60006 [46, 108, 113] [8, 1] [8, 1]
    [10, 3, 46, 108, 113, 18, 2, 8, 1] (by decide) (by decide) (by decide) (by decide)
    (by decide)).2.1

/-- C4 as stated fails: for the empty name and the empty payload, which protobuf wraps
into zero bytes and unwraps again, the first send of a new client hands the 3-byte frame
`2, 1, 0` to the stream, and the read side's rules discard a frame of that length. -/
theorem request_frame_roundtrip_fails_empty :
    WrapMessage wireProto [] [] = .ok [] ∧
    UnwrapData wireProto [] = .ok ([], []) ∧
    (send wireProto NewWebSocketClient [] [] ⟨1, 7⟩ none).frame = some [2, 1, 0] ∧
    decodeFrame wireProto [2, 1, 0] = none ∧
    decodeFrame wireProto [2, 1, 0] ≠ some (2, 1, [], []) := by
  decide

/-! ## Pending message indices -/

theorem runBody_registry {Msg : Type} (P : Proto Msg) (c : WebSocketClient)
    (read : Except GoError Bytes) :
    (runBody P c read).client.respMessageChanMap = c.respMessageChanMap ∨
    ∃ k, (runBody P c read).client.respMessageChanMap = Delete c.respMessageChanMap k := by
  unfold runBody
  split
  · split <;> exact Or.inl rfl
  · split
    · exact Or.inl rfl
    · split
      · simp only
        split
        · exact Or.inl rfl
        · split <;> exact Or.inr ⟨_, rfl⟩
      · exact Or.inl rfl

theorem reachable_exec {Msg : Type} (P : Proto Msg) (pre : List (Action Msg)) :
    ∀ c : WebSocketClient, Reachable P c → Reachable P (exec P c pre) := by
  induction pre with
  | nil => intro c h; exact h
  | cons a rest ih => intro c h; exact ih (step P c a) (Reachable.step c a h)

theorem recent_mono (c : WebSocketClient) (k n n1 : Nat) (hle : n ≤ n1) (h : Recent c k n) :
    Recent c k n1 := by
  obtain ⟨hlt, hor⟩ := h
  refine ⟨hlt, ?_⟩
  rcases hor with h0 | ⟨m, hm, heq⟩
  · exact Or.inl h0
  · exact Or.inr ⟨m, by omega, heq⟩

theorem recent_send {Msg : Type} (P : Proto Msg) (c : WebSocketClient) (k n : Nat)
    (name : Bytes) (reqMessage : Msg) (ch : Chan) (wsWrite : Option GoError) (data : Bytes)
    (hwrap : WrapMessage P name reqMessage = .ok data) (h : Recent c k n) :
    Recent (send P c name reqMessage ch wsWrite).client k (n + 1) := by
  obtain ⟨hlt, hor⟩ := h
  have hmod : (c.messageIndex + 1) % 65536 % 60007 = (c.messageIndex + 1) % 60007 := by omega
  have hnext : (c.messageIndex + 1) % 60007 < 60007 := Nat.mod_lt _ (by decide)
  have hold : Load c.respMessageChanMap k = none ∨
      ∃ m, m < n + 1 ∧ (c.messageIndex + 1) % 60007 = (k + m) % 60007 := by
    rcases hor with h0 | ⟨m, hm, heq⟩
    · exact Or.inl h0
    · exact Or.inr ⟨m + 1, by omega, by omega⟩
  cases wsWrite with
  | some err =>
    rw [send_write_error P c name reqMessage ch err data hwrap, hmod]
    exact ⟨hnext, hold⟩
  | none =>
    rw [send_written P c name reqMessage ch data hwrap, hmod]
    refine ⟨hnext, ?_⟩
    by_cases hk : k = (c.messageIndex + 1) % 60007
    · have hzero : (c.messageIndex + 1) % 60007 = (k + 0) % 60007 := by
        clear hmod hold hor
        omega
      exact Or.inr ⟨0, Nat.succ_pos n, hzero⟩
    · show Load (Store _ _ _) k = none ∨ _
      rw [Load_Store_ne _ _ _ _ hk]
      exact hold

theorem recent_runBody {Msg : Type} (P : Proto Msg) (c : WebSocketClient) (k n : Nat)
    (read : Except GoError Bytes) (h : Recent c k n) : Recent (runBody P c read).client k n := by
  obtain ⟨hlt, hor⟩ := h
  refine ⟨by rw [runBody_messageIndex]; exact hlt, ?_⟩
  rw [runBody_messageIndex]
  rcases hor with h0 | hm
  · left
    rcases runBody_registry P c read with hreg | ⟨k1, hreg⟩
    · rw [hreg]; exact h0
    · rw [hreg]
      by_cases hk : k = k1
      · subst hk; exact Load_Delete_self _ _
      · rw [Load_Delete_ne _ _ _ hk]; exact h0
  · exact Or.inr hm

theorem recent_exec {Msg : Type} (P : Proto Msg) (k : Nat) (pre : List (Action Msg)) :
    ∀ (c : WebSocketClient) (n : Nat), Recent c k n →
      Recent (exec P c pre) k (n + countAssigned P pre) := by
  induction pre with
  | nil => intro c n h; exact h
  | cons a rest ih =>
    intro c n h
    cases a with
    | send name reqMessage ch wsWrite =>
      cases hwrap : WrapMessage P name reqMessage with
      | error e =>
        have h1 : Recent (send P c name reqMessage ch wsWrite).client k n := by
          rw [send_wrap_error P c name reqMessage ch wsWrite e hwrap]; exact h
        have h2 := ih (send P c name reqMessage ch wsWrite).client n h1
        simp only [countAssigned, hwrap, Nat.zero_add]
        exact h2
      | ok data =>
        have h1 := recent_send P c k n name reqMessage ch wsWrite data hwrap h
        have h2 := ih (send P c name reqMessage ch wsWrite).client (n + 1) h1
        simp only [countAssigned, hwrap]
        exact recent_mono _ k _ _ (by omega) h2
    | read read =>
      simp only [countAssigned]
      exact ih (runBody P c read).client n (recent_runBody P c k n read h)
    | close wsClose =>
      simp only [countAssigned]
      exact ih (Close c wsClose).1 n h

theorem exec_append {Msg : Type} (P : Proto Msg) (l1 l2 : List (Action Msg)) :
    ∀ c : WebSocketClient, exec P c (l1 ++ l2) = exec P (exec P c l1) l2 := by
  induction l1 with
  | nil => intro c; rfl
  | cons a rest ih => intro c; exact ih (step P c a)

/-- C3, as the code has it: in a run of sends, read-loop passes and closes from a new
client, a send that wraps its request is assigned the message index `(k + 1) % 60007`,
and the registry holds no entry under it whenever that index had no entry at some
earlier point of the run after which at most 60006 message indices were assigned.
Storing the channel then overwrites nothing: after a written send the new channel is
the entry of the assigned index, every entry pending before is still there with its
channel, and no other index is touched. -/
theorem send_fresh_index {Msg : Type} (P : Proto Msg) (pre1 pre2 : List (Action Msg))
    (name : Bytes) (reqMessage : Msg) (ch : Chan) (data : Bytes)
    (hwrap : WrapMessage P name reqMessage = .ok data)
    (hwindow : countAssigned P pre2 ≤ 60006)
    (hfree : Load (exec P NewWebSocketClient pre1).respMessageChanMap
      (((exec P NewWebSocketClient (pre1 ++ pre2)).messageIndex + 1) % 60007) = none) :
    (∀ wsWrite, (send P (exec P NewWebSocketClient (pre1 ++ pre2)) name reqMessage ch
        wsWrite).client.messageIndex
        = ((exec P NewWebSocketClient (pre1 ++ pre2)).messageIndex + 1) % 60007) ∧
    Load (exec P NewWebSocketClient (pre1 ++ pre2)).respMessageChanMap
      (((exec P NewWebSocketClient (pre1 ++ pre2)).messageIndex + 1) % 60007) = none ∧
    Load (send P (exec P NewWebSocketClient (pre1 ++ pre2)) name reqMessage ch
        none).client.respMessageChanMap
      (((exec P NewWebSocketClient (pre1 ++ pre2)).messageIndex + 1) % 60007) = some ch ∧
    (∀ k ch1, Load (exec P NewWebSocketClient (pre1 ++ pre2)).respMessageChanMap k = some ch1 →
      Load (send P (exec P NewWebSocketClient (pre1 ++ pre2)) name reqMessage ch
        none).client.respMessageChanMap k = some ch1) ∧
    (∀ k, k ≠ ((exec P NewWebSocketClient (pre1 ++ pre2)).messageIndex + 1) % 60007 →
      Load (send P (exec P NewWebSocketClient (pre1 ++ pre2)) name reqMessage ch
        none).client.respMessageChanMap k
        = Load (exec P NewWebSocketClient (pre1 ++ pre2)).respMessageChanMap k) := by
  have hreach1 : Reachable P (exec P NewWebSocketClient pre1) :=
    reachable_exec P pre1 NewWebSocketClient Reachable.new
  have hrecent := recent_exec P
    (((exec P NewWebSocketClient (pre1 ++ pre2)).messageIndex + 1) % 60007) pre2
    (exec P NewWebSocketClient pre1) 0
    ⟨reachable_messageIndex_lt P _ hreach1, Or.inl hfree⟩
  rw [← exec_append, Nat.zero_add] at hrecent
  generalize exec P NewWebSocketClient (pre1 ++ pre2) = c at hrecent ⊢
  obtain ⟨hlt, hor⟩ := hrecent
  have hmod : (c.messageIndex + 1) % 65536 % 60007 = (c.messageIndex + 1) % 60007 := by omega
  have hnone : Load c.respMessageChanMap ((c.messageIndex + 1) % 60007) = none := by
    rcases hor with h0 | ⟨m, hm, heq⟩
    · exact h0
    · exfalso; omega
  have hsent := send_written P c name reqMessage ch data hwrap
  rw [hmod] at hsent
  have hother : ∀ k, k ≠ (c.messageIndex + 1) % 60007 →
      Load (send P c name reqMessage ch none).client.respMessageChanMap k
        = Load c.respMessageChanMap k := by
    intro k hk
    rw [hsent]
    exact Load_Store_ne _ _ _ _ hk
  refine ⟨?_, hnone, ?_, ?_, hother⟩
  · intro wsWrite
    rw [(send_messageIndex_frame P c name reqMessage ch wsWrite data hwrap).1, hmod]
  · rw [hsent]
    exact Load_Store_self _ _ _
  · intro k ch1 hk
    have hne : k ≠ (c.messageIndex + 1) % 60007 := by
      intro heq
      rw [heq, hnone] at hk
      exact absurd hk (by simp)
    rw [hother k hne]
    exact hk

theorem send_fresh_index_witness :
    Load (exec wireProto NewWebSocketClient
        ([.send [46, 108, 113] [8, 1] ⟨1, 7⟩ none, .read (.ok [3, 1, 0, 18, 2, 8, 1])] ++
          [.send [46, 108, 113] [8, 2] ⟨2, 7⟩ none])).respMessageChanMap 3 = none ∧
    Load (send wireProto (exec wireProto NewWebSocketClient
        ([.send [46, 108, 113] [8, 1] ⟨1, 7⟩ none, .read (.ok [3, 1, 0, 18, 2, 8, 1])] ++
          [.send [46, 108, 113] [8, 2] ⟨2, 7⟩ none]))
        [46, 108, 113] [8, 3] ⟨3, 7⟩ none).client.respMessageChanMap 3 = some ⟨3, 7⟩ ∧
    Load (send wireProto (exec wireProto NewWebSocketClient
        ([.send [46, 108, 113] [8, 1] ⟨1, 7⟩ none, .read (.ok [3, 1, 0, 18, 2, 8, 1])] ++
          [.send [46, 108, 113] [8, 2] ⟨2, 7⟩ none]))
        [46, 108, 113] [8, 3] ⟨3, 7⟩ none).client.respMessageChanMap 2 = some ⟨2, 7⟩ :=
  have h := send_fresh_index wireProto
    [.send [46, 108, 113] [8, 1] ⟨1, 7⟩ none, .read (.ok [3, 1, 0, 18, 2, 8, 1])]
    [.send [46, 108, 113] [8, 2] ⟨2, 7⟩ none]
    [46, 108, 113] [8, 3] ⟨3, 7⟩ [10, 3, 46, 108, 113, 18, 2, 8, 3]
    (by decide) (by decide) (by decide)
  ⟨h.2.1, h.2.2.1, h.2.2.2.1 2 ⟨2, 7⟩ (by decide)⟩

theorem exec_sendsWithoutReply_succ (n : Nat) :
    exec wireProto NewWebSocketClient (sendsWithoutReply (n + 1)) =
      (send wireProto (exec wireProto NewWebSocketClient (sendsWithoutReply n)) [] []
        ⟨1, 7⟩ none).client := by
  have h : sendsWithoutReply (n + 1) = sendsWithoutReply n ++ [.send [] [] ⟨1, 7⟩ none] := by
    unfold sendsWithoutReply
    exact List.replicate_succ' n _
  rw [h, exec_append]
  rfl

theorem wrapMessage_empty : WrapMessage wireProto [] [] = .ok [] := by decide

theorem exec_sendsWithoutReply (n : Nat) (hn : n ≤ 60006) :
    (exec wireProto NewWebSocketClient (sendsWithoutReply n)).messageIndex = n ∧
    ∀ k, 1 ≤ k → k ≤ n →
      Load (exec wireProto NewWebSocketClient (sendsWithoutReply n)).respMessageChanMap k
        = some ⟨1, 7⟩ := by
  induction n with
  | zero =>
    refine ⟨rfl, ?_⟩
    intro k h1 h2
    omega
  | succ n ih =>
    obtain ⟨hidx, hload⟩ := ih (by omega)
    rw [exec_sendsWithoutReply_succ, send_written wireProto _ [] [] ⟨1, 7⟩ [] wrapMessage_empty,
      hidx]
    have hmod : (n + 1) % 65536 % 60007 = n + 1 := by omega
    rw [hmod]
    refine ⟨rfl, ?_⟩
    intro k h1 h2
    by_cases hk : k = n + 1
    · subst hk
      exact Load_Store_self _ _ _
    · show Load (Store _ (n + 1) _) k = _
      rw [Load_Store_ne _ _ _ _ hk]
      exact hload k h1 (by omega)

/-- C3 as stated fails: after 60007 sends from a new client, each written and none
answered, the call under message index 1 is still pending, and has been while the 60006
later indices were assigned; the next send is assigned the message index 1 again and
storing its channel replaces the pending one. -/
theorem send_reuses_pending_index :
    Load (exec wireProto NewWebSocketClient (sendsWithoutReply 60007)).respMessageChanMap 1
      = some ⟨1, 7⟩ ∧
    (send wireProto (exec wireProto NewWebSocketClient (sendsWithoutReply 60007)) [] []
      ⟨2, 7⟩ none).client.messageIndex = 1 ∧
    Load (send wireProto (exec wireProto NewWebSocketClient (sendsWithoutReply 60007)) [] []
      ⟨2, 7⟩ none).client.respMessageChanMap 1 = some ⟨2, 7⟩ := by
  obtain ⟨hidx, hload⟩ := exec_sendsWithoutReply 60006 (Nat.le_refl _)
  have hstate : exec wireProto NewWebSocketClient (sendsWithoutReply 60007) =
      { exec wireProto NewWebSocketClient (sendsWithoutReply 60006) with
        messageIndex := 0,
        respMessageChanMap :=
          Store (exec wireProto NewWebSocketClient (sendsWithoutReply 60006)).respMessageChanMap
            0 ⟨1, 7⟩ } := by
    rw [exec_sendsWithoutReply_succ 60006,
      send_written wireProto _ [] [] ⟨1, 7⟩ [] wrapMessage_empty, hidx]
  have hpending :
      Load (exec wireProto NewWebSocketClient (sendsWithoutReply 60007)).respMessageChanMap 1
        = some ⟨1, 7⟩ := by
    rw [hstate]
    show Load (Store _ 0 _) 1 = _
    rw [Load_Store_ne _ 0 1 _ (by decide)]
    exact hload 1 (Nat.le_refl 1) (by decide)
  have hnext : (exec wireProto NewWebSocketClient (sendsWithoutReply 60007)).messageIndex = 0 := by
    rw [hstate]
  rw [send_written wireProto _ [] [] ⟨2, 7⟩ [] wrapMessage_empty, hnext]
  exact ⟨hpending, rfl, Load_Store_self _ _ _⟩

end Majsoul
